import Mathlib

/-!
# Verification of the CDA market simulator (`src/CDA.py`)

A shallow embedding of the continuous double auction engine of the thesis
repository `BScThesisCDA`: the depth-one `Orderbook`, the `Exchange` order
matching (`process_order`), the `Trader` bookkeeping (`bookkeep`,
`calc_utility`), the eGD belief fallback (`equilibrium_price`) and the
zero-intelligence order generator (`Trader_ZI.get_order`).

Python integers are modelled as `Int`, Python floats appearing in utility and
price computations as `ℚ` (the source only ever performs exact field
operations on them), Python dictionaries keyed by trader id as functions
`Nat → Balance`, and Python exceptions as `Except String`.  Calls to
`random.random()` are modelled by an explicit parameter `r` with `0 ≤ r < 1`.
-/

namespace CDA

/-- Order side: Python strings `"bid"` / `"ask"` of `Order.otype`. -/
inductive Side where
  | bid : Side
  | ask : Side
deriving DecidableEq, Repr

/-- The opposite side of the book; an incoming order crosses against this side. -/
def Side.opp : Side → Side
  | Side.bid => Side.ask
  | Side.ask => Side.bid

/-- Traded good: Python strings `"X"` / `"Y"` of `Order.ptype`. -/
inductive Good where
  | X : Good
  | Y : Good
deriving DecidableEq, Repr

/-- `Order` object of `CDA.py` (lines 13–54).  `oid`/`tid` are the order and
trader identifiers, `otype` the side, `ptype` the good, and the flags
`accepted`, `strategic`, `arbitrage`, `target_price` are initialised by
`__init__` and mutated by the drivers. -/
structure Order where
  oid : Nat
  tid : Nat
  otype : Side
  ptype : Good
  price : Int
  quantity : Int
  time : Int
  accepted : Bool := false
  strategic : Bool := false
  arbitrage : Bool := false
  target_price : Option Int := none
deriving DecidableEq, Repr

/-- Balance dictionary `{"money": _, "X": _, "Y": _}` of a trader. -/
structure Balance where
  money : Int
  X : Int
  Y : Int
deriving DecidableEq, Repr

/-- `balance[g]` for a good key. -/
def Balance.get (b : Balance) : Good → Int
  | Good.X => b.X
  | Good.Y => b.Y

/-- `balance[g] += d` for a good key. -/
def Balance.addGood (b : Balance) : Good → Int → Balance
  | Good.X, d => { b with X := b.X + d }
  | Good.Y, d => { b with Y := b.Y + d }

/-- Depth-one order book `Orderbook.lob` (lines 61–137): at most one resting
order per (good, side) cell. -/
structure Orderbook where
  xbid : Option Order
  xask : Option Order
  ybid : Option Order
  yask : Option Order
deriving DecidableEq, Repr

/-- `self.lob[good].get(side)`. -/
def Orderbook.get (ob : Orderbook) : Good → Side → Option Order
  | Good.X, Side.bid => ob.xbid
  | Good.X, Side.ask => ob.xask
  | Good.Y, Side.bid => ob.ybid
  | Good.Y, Side.ask => ob.yask

/-- `self.lob[good][side] = v` (with `v = none` for `del self.lob[good][side]`). -/
def Orderbook.set (ob : Orderbook) : Good → Side → Option Order → Orderbook
  | Good.X, Side.bid, v => { ob with xbid := v }
  | Good.X, Side.ask, v => { ob with xask := v }
  | Good.Y, Side.bid, v => { ob with ybid := v }
  | Good.Y, Side.ask, v => { ob with yask := v }

/-- The empty order book created by `Orderbook.__init__`. -/
def Orderbook.empty : Orderbook := ⟨none, none, none, none⟩

/-- `Orderbook.add_order_lob` (lines 99–137): an order is admitted when its
(good, side) cell is empty, or when it strictly improves the resting order
(a bid must be strictly higher, an ask strictly lower); otherwise it is
rejected and the book is unchanged.  Returns the new book paired with the
Python return value. -/
def add_order_lob (ob : Orderbook) (order : Order) : Orderbook × Bool :=
  match ob.get order.ptype order.otype with
  | none => (ob.set order.ptype order.otype (some order), true)
  | some rest =>
    match order.otype with
    | Side.bid =>
      if order.price > rest.price then
        (ob.set order.ptype order.otype (some order), true)
      else
        (ob, false)
    | Side.ask =>
      if order.price < rest.price then
        (ob.set order.ptype order.otype (some order), true)
      else
        (ob, false)

/-- Trade dictionary created by `Exchange.process_order` (lines 254–264 and
317–327). -/
structure Trade where
  time : Int
  period : Int
  run : Int
  buyer_id : Nat
  seller_id : Nat
  price : Int
  quantity : Int
  ptype : Good
  arbitrage : Bool
  taker : Nat
deriving DecidableEq, Repr

/-- Result of `Exchange.process_order`: the Python pair
`(successful_order, trade)` together with the mutated order book. -/
structure ProcessResult where
  success : Bool
  trade : Option Trade
  book : Orderbook
deriving DecidableEq, Repr

/-- `Exchange.process_order` (lines 180–341).  `minp`/`maxp` are the exchange
attributes `minprice`/`maxprice` (defaults 1 and 201), `bals tid` is
`traders[tid].balance`, and `ob` is `self.ob.lob`.  The book is threaded
explicitly instead of being mutated in place.

In the source, when the opposite cell is empty the floor price is set to the
sentinel `minprice` (for an ask) or `maxprice` (for a bid), so the crossing
test `order.price <= floorprice` (resp. `>=`) is always false there because
out-of-range prices were already rejected; the embedding matches on the
opposite cell first and goes directly to `add_order_lob` in the empty case,
which is the only reachable outcome of that branch. -/
def process_order (minp maxp : Int) (bals : Nat → Balance) (ob : Orderbook)
    (time period run : Int) (order : Order) : ProcessResult :=
  if order.price ≤ minp ∨ order.price ≥ maxp then
    ⟨false, none, ob⟩
  else
    match order.otype with
    | Side.ask =>
      -- Check if they have enough of the good to post the offer
      if order.quantity ≤ (bals order.tid).get order.ptype then
        match ob.get order.ptype Side.bid with
        | none =>
          -- floorprice = minprice and minprice < order.price: no cross, admit
          let res := add_order_lob ob order
          ⟨res.2, none, res.1⟩
        | some restbid =>
          if order.price ≤ restbid.price then
            -- Counterparty must still hold the money, re-validated at match time
            if restbid.price * restbid.quantity ≤ (bals restbid.tid).money then
              let arb := restbid.arbitrage
              if order.quantity < restbid.quantity then
                -- Partial sell: reduce the resting bid in place
                ⟨true,
                 some ⟨time, period, run, restbid.tid, order.tid, restbid.price,
                       order.quantity, order.ptype, arb, restbid.tid⟩,
                 ob.set order.ptype Side.bid
                   (some { restbid with quantity := restbid.quantity - order.quantity })⟩
              else
                -- Full sell: remove the resting bid
                ⟨true,
                 some ⟨time, period, run, restbid.tid, order.tid, restbid.price,
                       restbid.quantity, order.ptype, arb, restbid.tid⟩,
                 ob.set order.ptype Side.bid none⟩
            else
              -- Stale bid: evict it and admit the incoming ask as a fresh order
              let res := add_order_lob (ob.set order.ptype Side.bid none) order
              ⟨res.2, none, res.1⟩
          else
            let res := add_order_lob ob order
            ⟨res.2, none, res.1⟩
      else
        ⟨false, none, ob⟩
    | Side.bid =>
      -- Check if they have enough money to post the bid
      if order.price * order.quantity ≤ (bals order.tid).money then
        match ob.get order.ptype Side.ask with
        | none =>
          -- floorprice = maxprice and order.price < maxprice: no cross, admit
          let res := add_order_lob ob order
          ⟨res.2, none, res.1⟩
        | some restask =>
          if order.price ≥ restask.price then
            -- Counterparty must still hold the goods, re-validated at match time
            if order.quantity ≤ (bals restask.tid).get order.ptype then
              let arb := restask.arbitrage
              if order.quantity < restask.quantity then
                -- Partial buy: reduce the resting ask in place
                ⟨true,
                 some ⟨time, period, run, order.tid, restask.tid, restask.price,
                       order.quantity, order.ptype, arb, restask.tid⟩,
                 ob.set order.ptype Side.ask
                   (some { restask with quantity := restask.quantity - order.quantity })⟩
              else
                -- Full buy: remove the resting ask
                ⟨true,
                 some ⟨time, period, run, order.tid, restask.tid, restask.price,
                       restask.quantity, order.ptype, arb, restask.tid⟩,
                 ob.set order.ptype Side.ask none⟩
            else
              -- Stale ask: evict it and admit the incoming bid as a fresh order
              let res := add_order_lob (ob.set order.ptype Side.ask none) order
              ⟨res.2, none, res.1⟩
          else
            let res := add_order_lob ob order
            ⟨res.2, none, res.1⟩
      else
        ⟨false, none, ob⟩

/-- `Trader` object of `CDA.py` (lines 370–412), restricted to the fields the
verified operations touch.  `minprice`/`maxprice` are the Trader-class
attributes (0 and 200 in the source), distinct from the Exchange bounds. -/
structure Trader where
  tid : Nat
  ttype : Nat
  minprice : Int := 0
  maxprice : Int := 200
  balance : Balance
  blotter : List Trade := []
  utility : ℚ := 0
deriving DecidableEq, Repr

/-- `Trader.reset_allocation` (lines 417–430): the STABLE Scarf-economy
endowment for each trader type; an invalid type raises `ValueError`. -/
def reset_balance (ttype : Nat) : Option Balance :=
  if ttype = 1 then some ⟨0, 10, 0⟩
  else if ttype = 2 then some ⟨0, 0, 20⟩
  else if ttype = 3 then some ⟨400, 0, 0⟩
  else none

/-- `Trader.calc_utility` (lines 433–457): Leontief utility per trader type;
an invalid type raises `ValueError`. -/
def calc_utility (ttype : Nat) (b : Balance) : Except String ℚ :=
  if ttype = 1 then .ok (min ((b.money : ℚ) / 400) ((b.Y : ℚ) / 20))
  else if ttype = 2 then .ok (min ((b.money : ℚ) / 400) ((b.X : ℚ) / 10))
  else if ttype = 3 then .ok (min ((b.X : ℚ) / 10) ((b.Y : ℚ) / 20))
  else .error "Invalid trader type. Traders must be of type 1, 2 or 3 INTEGER"

/-- The buyer's balance after a trade (lines 642–645): gains `quantity` of
the good, pays `quantity * price` of money. -/
def buyer_balance_after (trade : Trade) (b : Balance) : Balance :=
  { b.addGood trade.ptype trade.quantity with
    money := b.money - trade.quantity * trade.price }

/-- The seller's balance after a trade (lines 649–652): loses `quantity` of
the good, receives `quantity * price` of money. -/
def seller_balance_after (trade : Trade) (b : Balance) : Balance :=
  { b.addGood trade.ptype (-trade.quantity) with
    money := b.money + trade.quantity * trade.price }

/-- The balance mutation of `Trader.bookkeep` (lines 636–652) for the trader
with id `tid`: a self-trade changes nothing, the buyer gains the good and
pays `quantity * price`, the seller loses the good and receives
`quantity * price`; `none` when the trader is neither (the source raises
`ValueError` there). -/
def bookkeep_balance (tid : Nat) (trade : Trade) (b : Balance) : Option Balance :=
  if trade.buyer_id = trade.seller_id then
    some b
  else if trade.buyer_id = tid then
    some (buyer_balance_after trade b)
  else if trade.seller_id = tid then
    some (seller_balance_after trade b)
  else
    none

/-- `Trader.bookkeep` (lines 623–661): append the trade to the blotter, update
the balance via the buyer/seller/self-trade case split, raise when the trader
is not involved, then recompute the cached utility. -/
def bookkeep (t : Trader) (trade : Trade) : Except String Trader :=
  match bookkeep_balance t.tid trade t.balance with
  | none => .error "Trader was not involved in this trade"
  | some b =>
    match calc_utility t.ttype b with
    | .error e => .error e
    | .ok u => .ok { t with blotter := t.blotter ++ [trade], balance := b, utility := u }

/-- The driver step after a successful match (lines 2087–2088): call
`bookkeep` on the seller and the buyer of the returned trade, leaving every
other trader's balance untouched.  (`bookkeep_balance` is total on the two
counterparties, so `getD` never falls through.) -/
def apply_trade (bals : Nat → Balance) (trade : Trade) : Nat → Balance := fun tid =>
  if tid = trade.seller_id ∨ tid = trade.buyer_id then
    (bookkeep_balance tid trade (bals tid)).getD (bals tid)
  else
    bals tid

/-- Market-level state: the balance of every trader plus the exchange book. -/
structure MarketState where
  bals : Nat → Balance
  book : Orderbook

/-- One driver cycle: `Exchange.process_order` on a submitted order followed,
when a trade is returned, by `Trader.bookkeep` on its buyer and seller. -/
def applyOrder (minp maxp : Int) (s : MarketState) (time period run : Int)
    (order : Order) : MarketState :=
  let res := process_order minp maxp s.bals s.book time period run order
  match res.trade with
  | none => ⟨s.bals, res.book⟩
  | some tr => ⟨apply_trade s.bals tr, res.book⟩

/-- Transition relation of the market: submitting any order with a
non-negative quantity (every order built by a trader in the source has
`quantity = 1`). -/
inductive Step (minp maxp : Int) : MarketState → MarketState → Prop where
  | order (s : MarketState) (time period run : Int) (o : Order)
      (hq : 0 ≤ o.quantity) :
      Step minp maxp s (applyOrder minp maxp s time period run o)

/-! ## Order book access lemmas -/

theorem Orderbook.get_set_same (ob : Orderbook) (g : Good) (s : Side) (v : Option Order) :
    (ob.set g s v).get g s = v := by
  cases g <;> cases s <;> rfl

theorem Orderbook.get_set_ne (ob : Orderbook) (g : Good) (s : Side) (g' : Good) (s' : Side)
    (v : Option Order) (h : g ≠ g' ∨ s ≠ s') : (ob.set g s v).get g' s' = ob.get g' s' := by
  cases g <;> cases s <;> cases g' <;> cases s' <;> simp_all [Orderbook.get, Orderbook.set]

@[simp] theorem Side.opp_bid : Side.opp Side.bid = Side.ask := rfl

@[simp] theorem Side.opp_ask : Side.opp Side.ask = Side.bid := rfl

/-! ## Characterisation of the trades emitted by `process_order` -/

/-- Whenever `process_order` returns a trade, the opposite cell of the book
held a resting (maker) order, and the trade's fields come from that maker:
maker's price, fill quantity `min(incoming, resting)`, the maker's
`arbitrage` flag, the maker's id in the `taker` field, buyer/seller assigned
by side; the maker cell is reduced in place on a partial fill and cleared on
a full fill, and the incoming order's own side of the book is untouched. -/
theorem process_order_trade_spec (minp maxp : Int) (bals : Nat → Balance) (ob : Orderbook)
    (time period run : Int) (o : Order) (tr : Trade)
    (h : (process_order minp maxp bals ob time period run o).trade = some tr) :
    ∃ maker, ob.get o.ptype o.otype.opp = some maker ∧
      tr.price = maker.price ∧
      tr.quantity = min o.quantity maker.quantity ∧
      tr.ptype = o.ptype ∧
      tr.arbitrage = maker.arbitrage ∧
      tr.taker = maker.tid ∧
      tr.buyer_id = (if o.otype = Side.ask then maker.tid else o.tid) ∧
      tr.seller_id = (if o.otype = Side.ask then o.tid else maker.tid) ∧
      (process_order minp maxp bals ob time period run o).book.get o.ptype o.otype.opp
        = (if o.quantity < maker.quantity then
             some { maker with quantity := maker.quantity - o.quantity }
           else none) ∧
      (process_order minp maxp bals ob time period run o).book.get o.ptype o.otype
        = ob.get o.ptype o.otype := by
  obtain ⟨oid, tid, otype, ptype, price, quantity, otime, acc, strat, arb, tp⟩ := o
  by_cases hrange : price ≤ minp ∨ price ≥ maxp
  · simp [process_order, hrange] at h
  · cases otype with
    | ask =>
      by_cases hqty : quantity ≤ (bals tid).get ptype
      · cases hbid : ob.get ptype Side.bid with
        | none => simp [process_order, hrange, hqty, hbid] at h
        | some restbid =>
          by_cases hcross : price ≤ restbid.price
          · by_cases hmoney : restbid.price * restbid.quantity ≤ (bals restbid.tid).money
            · by_cases hpart : quantity < restbid.quantity
              · have hres : process_order minp maxp bals ob time period run
                    ⟨oid, tid, Side.ask, ptype, price, quantity, otime, acc, strat, arb, tp⟩
                    = ⟨true,
                       some ⟨time, period, run, restbid.tid, tid, restbid.price, quantity,
                             ptype, restbid.arbitrage, restbid.tid⟩,
                       ob.set ptype Side.bid
                         (some { restbid with quantity := restbid.quantity - quantity })⟩ := by
                  simp [process_order, hrange, hqty, hbid, hcross, hmoney, hpart]
                rw [hres] at h
                obtain rfl := Option.some.inj h
                refine ⟨restbid, hbid, rfl, (min_eq_left hpart.le).symm, rfl, rfl, rfl,
                  by simp, by simp, ?_, ?_⟩
                · rw [hres]
                  simp [Orderbook.get_set_same, hpart]
                · rw [hres]
                  exact Orderbook.get_set_ne _ _ _ _ _ _ (Or.inr (by simp))
              · have hres : process_order minp maxp bals ob time period run
                    ⟨oid, tid, Side.ask, ptype, price, quantity, otime, acc, strat, arb, tp⟩
                    = ⟨true,
                       some ⟨time, period, run, restbid.tid, tid, restbid.price,
                             restbid.quantity, ptype, restbid.arbitrage, restbid.tid⟩,
                       ob.set ptype Side.bid none⟩ := by
                  simp [process_order, hrange, hqty, hbid, hcross, hmoney, hpart]
                rw [hres] at h
                obtain rfl := Option.some.inj h
                refine ⟨restbid, hbid, rfl, (min_eq_right (le_of_not_lt hpart)).symm, rfl,
                  rfl, rfl, by simp, by simp, ?_, ?_⟩
                · rw [hres]
                  simp [Orderbook.get_set_same, hpart]
                · rw [hres]
                  exact Orderbook.get_set_ne _ _ _ _ _ _ (Or.inr (by simp))
            · simp [process_order, hrange, hqty, hbid, hcross, hmoney] at h
          · simp [process_order, hrange, hqty, hbid, hcross] at h
      · simp [process_order, hrange, hqty] at h
    | bid =>
      by_cases hqty : price * quantity ≤ (bals tid).money
      · cases hask : ob.get ptype Side.ask with
        | none => simp [process_order, hrange, hqty, hask] at h
        | some restask =>
          by_cases hcross : price ≥ restask.price
          · by_cases hgoods : quantity ≤ (bals restask.tid).get ptype
            · by_cases hpart : quantity < restask.quantity
              · have hres : process_order minp maxp bals ob time period run
                    ⟨oid, tid, Side.bid, ptype, price, quantity, otime, acc, strat, arb, tp⟩
                    = ⟨true,
                       some ⟨time, period, run, tid, restask.tid, restask.price, quantity,
                             ptype, restask.arbitrage, restask.tid⟩,
                       ob.set ptype Side.ask
                         (some { restask with quantity := restask.quantity - quantity })⟩ := by
                  simp [process_order, hrange, hqty, hask, hcross, hgoods, hpart]
                rw [hres] at h
                obtain rfl := Option.some.inj h
                refine ⟨restask, hask, rfl, (min_eq_left hpart.le).symm, rfl, rfl, rfl,
                  by simp, by simp, ?_, ?_⟩
                · rw [hres]
                  simp [Orderbook.get_set_same, hpart]
                · rw [hres]
                  exact Orderbook.get_set_ne _ _ _ _ _ _ (Or.inr (by simp))
              · have hres : process_order minp maxp bals ob time period run
                    ⟨oid, tid, Side.bid, ptype, price, quantity, otime, acc, strat, arb, tp⟩
                    = ⟨true,
                       some ⟨time, period, run, tid, restask.tid, restask.price,
                             restask.quantity, ptype, restask.arbitrage, restask.tid⟩,
                       ob.set ptype Side.ask none⟩ := by
                  simp [process_order, hrange, hqty, hask, hcross, hgoods, hpart]
                rw [hres] at h
                obtain rfl := Option.some.inj h
                refine ⟨restask, hask, rfl, (min_eq_right (le_of_not_lt hpart)).symm, rfl,
                  rfl, rfl, by simp, by simp, ?_, ?_⟩
                · rw [hres]
                  simp [Orderbook.get_set_same, hpart]
                · rw [hres]
                  exact Orderbook.get_set_ne _ _ _ _ _ _ (Or.inr (by simp))
            · simp [process_order, hrange, hqty, hask, hcross, hgoods] at h
          · simp [process_order, hrange, hqty, hask, hcross] at h
      · simp [process_order, hrange, hqty] at h

/-! ## Concrete fixtures

A two-trader market used by the counterexamples and witnesses: trader 1 holds
only money, trader 2 holds only units of good X.  A bid by trader 1 at price
50 rests in the X book (flagged `strategic`, as the first leg of a GDZ plan
would be), and trader 2 submits a crossing ask at price 40. -/

def exBals : Nat → Balance := fun tid => if tid = 1 then ⟨400, 0, 0⟩ else ⟨0, 5, 0⟩

def exRestBid : Order :=
  { oid := 1, tid := 1, otype := Side.bid, ptype := Good.X, price := 50, quantity := 1,
    time := 0, strategic := true }

def exBook : Orderbook := ⟨some exRestBid, none, none, none⟩

def exAsk : Order :=
  { oid := 2, tid := 2, otype := Side.ask, ptype := Good.X, price := 40, quantity := 1,
    time := 1 }

/-- The trade the exchange produces for the fixture above. -/
def exTrade : Trade := ⟨1, 1, 1, 1, 2, 50, 1, Good.X, false, 1⟩

/-! ## C1 : the `taker` field and the `arbitrage` flag of a trade -/

/-- C1, counterexample: for the incoming ask of trader 2 crossing the resting
bid of trader 1, the emitted trade carries `taker = 1` — the resting (maker)
bid's submitter, not the ask submitter 2 as the claim states — and its
`arbitrage` flag is `false`, mirroring the maker's `arbitrage` attribute and
not its `strategic` attribute (which is `true` here). -/
theorem taker_field_counterexample :
    (process_order 1 201 exBals exBook 1 1 1 exAsk).trade = some exTrade ∧
    exAsk.otype = Side.ask ∧ exAsk.tid = 2 ∧ exTrade.taker = 1 ∧
    exBook.get Good.X Side.bid = some exRestBid ∧ exRestBid.tid = 1 ∧
    exRestBid.strategic = true ∧ exTrade.arbitrage = false := by
  decide

/-- C1 (amended): whenever `process_order` emits a trade, its `taker` field
holds the id of the resting (maker) order's submitter — the resting bid's
owner (the buyer) for an incoming ask, the resting ask's owner (the seller)
for an incoming bid — and the trade's `arbitrage` flag mirrors the maker
order's `arbitrage` attribute. -/
theorem taker_and_arbitrage_mirror_maker (minp maxp : Int) (bals : Nat → Balance)
    (ob : Orderbook) (time period run : Int) (o : Order) (maker : Order) (tr : Trade)
    (hm : ob.get o.ptype o.otype.opp = some maker)
    (h : (process_order minp maxp bals ob time period run o).trade = some tr) :
    tr.taker = maker.tid ∧ tr.arbitrage = maker.arbitrage ∧
    tr.taker = (if o.otype = Side.ask then tr.buyer_id else tr.seller_id) := by
  obtain ⟨m, hm', _, _, _, harb, htk, hbuy, hsell, _, _⟩ :=
    process_order_trade_spec minp maxp bals ob time period run o tr h
  rw [hm'] at hm
  obtain rfl := Option.some.inj hm
  refine ⟨htk, harb, ?_⟩
  cases ho : o.otype <;> simp [ho] at hbuy hsell ⊢ <;> omega

/-- C1 witness: in the fixture market the theorem applies, giving taker = 1
(the maker) with the maker's arbitrage flag. -/
theorem taker_and_arbitrage_mirror_maker_witness :
    exTrade.taker = exRestBid.tid ∧ exTrade.arbitrage = exRestBid.arbitrage ∧
    exTrade.taker = (if exAsk.otype = Side.ask then exTrade.buyer_id else exTrade.seller_id) :=
  taker_and_arbitrage_mirror_maker 1 201 exBals exBook 1 1 1 exAsk exRestBid exTrade
    (by decide) (by decide)

/-! ## C2 : trades execute at the maker's price -/

/-- C2: every match executes at the resting (maker) order's price, never the
incoming order's price. -/
theorem trade_at_maker_price (minp maxp : Int) (bals : Nat → Balance)
    (ob : Orderbook) (time period run : Int) (o : Order) (maker : Order) (tr : Trade)
    (hm : ob.get o.ptype o.otype.opp = some maker)
    (h : (process_order minp maxp bals ob time period run o).trade = some tr) :
    tr.price = maker.price := by
  obtain ⟨m, hm', hp, _⟩ :=
    process_order_trade_spec minp maxp bals ob time period run o tr h
  rw [hm'] at hm
  obtain rfl := Option.some.inj hm
  exact hp

/-- C2 witness: the spec's own example — a resting bid at 50 hit by an
incoming ask at 40 for quantity 1 trades at price 50, the maker's price. -/
theorem trade_at_maker_price_witness : exTrade.price = exRestBid.price :=
  trade_at_maker_price 1 201 exBals exBook 1 1 1 exAsk exRestBid exTrade
    (by decide) (by decide)

/-! ## C4 : fill quantity and disposal of the resting order -/

/-- C4: the filled quantity is `min(incoming, resting)`; when the incoming
quantity is strictly smaller the maker order stays in the book with its
quantity reduced in place, otherwise the maker cell is cleared; the incoming
order's own side of the book is untouched, so leftover incoming quantity is
dropped and never re-submitted as a resting order. -/
theorem fill_quantity_min (minp maxp : Int) (bals : Nat → Balance)
    (ob : Orderbook) (time period run : Int) (o : Order) (maker : Order) (tr : Trade)
    (hm : ob.get o.ptype o.otype.opp = some maker)
    (h : (process_order minp maxp bals ob time period run o).trade = some tr) :
    tr.quantity = min o.quantity maker.quantity ∧
    (process_order minp maxp bals ob time period run o).book.get o.ptype o.otype.opp
      = (if o.quantity < maker.quantity then
           some { maker with quantity := maker.quantity - o.quantity }
         else none) ∧
    (process_order minp maxp bals ob time period run o).book.get o.ptype o.otype
      = ob.get o.ptype o.otype := by
  obtain ⟨m, hm', _, hq, _, _, _, _, _, hbook, hside⟩ :=
    process_order_trade_spec minp maxp bals ob time period run o tr h
  rw [hm'] at hm
  obtain rfl := Option.some.inj hm
  exact ⟨hq, hbook, hside⟩

/-- C4 witness: in the fixture the fill is `min 1 1 = 1`, the resting bid is
removed (full fill) and the ask side of the X book stays empty. -/
theorem fill_quantity_min_witness :
    exTrade.quantity = min exAsk.quantity exRestBid.quantity ∧
    (process_order 1 201 exBals exBook 1 1 1 exAsk).book.get exAsk.ptype exAsk.otype.opp
      = (if exAsk.quantity < exRestBid.quantity then
           some { exRestBid with quantity := exRestBid.quantity - exAsk.quantity }
         else none) ∧
    (process_order 1 201 exBals exBook 1 1 1 exAsk).book.get exAsk.ptype exAsk.otype
      = exBook.get exAsk.ptype exAsk.otype :=
  fill_quantity_min 1 201 exBals exBook 1 1 1 exAsk exRestBid exTrade
    (by decide) (by decide)

/-! ## C3 : price-improvement admission in `add_order_lob` -/

/-- C3: an order submitted to `add_order_lob` is accepted unconditionally when
its (good, side) cell is empty, and otherwise accepted iff it strictly
improves the resting order (a bid strictly higher, an ask strictly lower);
in particular a price tie is rejected; and every rejection leaves the book
unchanged. -/
theorem add_order_lob_strict_improvement (ob : Orderbook) (o : Order) :
    ((add_order_lob ob o).2 = true ↔
      ob.get o.ptype o.otype = none ∨
      ∃ rest, ob.get o.ptype o.otype = some rest ∧
        ((o.otype = Side.bid ∧ rest.price < o.price) ∨
         (o.otype = Side.ask ∧ o.price < rest.price))) ∧
    ((add_order_lob ob o).2 = false → (add_order_lob ob o).1 = ob) := by
  cases hc : ob.get o.ptype o.otype with
  | none => simp [add_order_lob, hc]
  | some rest =>
    cases ho : o.otype with
    | bid =>
      rw [ho] at hc
      by_cases hlt : rest.price < o.price <;> simp [add_order_lob, hc, ho, hlt]
    | ask =>
      rw [ho] at hc
      by_cases hlt : o.price < rest.price <;> simp [add_order_lob, hc, ho, hlt]

/-- A bid tying the resting bid's price of 50, the spec's rejection example. -/
def c3TieBid : Order :=
  { oid := 3, tid := 1, otype := Side.bid, ptype := Good.X, price := 50, quantity := 1,
    time := 2 }

/-- C3 witness: against the resting bid at 50, an incoming bid at the same
price 50 satisfies neither acceptance condition, and on rejection the book
is unchanged. -/
theorem add_order_lob_strict_improvement_witness :
    ((add_order_lob exBook c3TieBid).2 = true ↔
      exBook.get c3TieBid.ptype c3TieBid.otype = none ∨
      ∃ rest, exBook.get c3TieBid.ptype c3TieBid.otype = some rest ∧
        ((c3TieBid.otype = Side.bid ∧ rest.price < c3TieBid.price) ∨
         (c3TieBid.otype = Side.ask ∧ c3TieBid.price < rest.price))) ∧
    ((add_order_lob exBook c3TieBid).2 = false →
      (add_order_lob exBook c3TieBid).1 = exBook) :=
  add_order_lob_strict_improvement exBook c3TieBid

/-! ## C9 : out-of-range orders are rejected without side effects -/

/-- C9: an order whose price lies outside the open interval
`(minprice, maxprice)` is rejected immediately: `process_order` returns
`(False, None)` and the book is unchanged. -/
theorem process_order_rejects_out_of_range (minp maxp : Int) (bals : Nat → Balance)
    (ob : Orderbook) (time period run : Int) (o : Order)
    (h : o.price ≤ minp ∨ o.price ≥ maxp) :
    process_order minp maxp bals ob time period run o = ⟨false, none, ob⟩ := by
  simp [process_order, h]

/-- C9 witness: an ask at price 250 ≥ 201 is rejected and leaves the fixture
book unchanged. -/
theorem process_order_rejects_out_of_range_witness :
    process_order 1 201 exBals exBook 1 1 1 { exAsk with price := 250 }
      = ⟨false, none, exBook⟩ :=
  process_order_rejects_out_of_range 1 201 exBals exBook 1 1 1 _ (Or.inr (by decide))

/-! ## Balance and `apply_trade` lemmas -/

theorem Balance.money_addGood (b : Balance) (g : Good) (d : Int) :
    (b.addGood g d).money = b.money := by
  cases g <;> rfl

theorem Balance.get_addGood_same (b : Balance) (g : Good) (d : Int) :
    (b.addGood g d).get g = b.get g + d := by
  cases g <;> rfl

theorem Balance.get_mk_money (b : Balance) (m : Int) (g : Good) :
    ({ b with money := m } : Balance).get g = b.get g := by
  cases g <;> rfl

theorem money_buyer_balance_after (trade : Trade) (b : Balance) :
    (buyer_balance_after trade b).money = b.money - trade.quantity * trade.price := rfl

theorem get_buyer_balance_after (trade : Trade) (b : Balance) :
    (buyer_balance_after trade b).get trade.ptype = b.get trade.ptype + trade.quantity := by
  rw [buyer_balance_after, Balance.get_mk_money, Balance.get_addGood_same]

theorem money_seller_balance_after (trade : Trade) (b : Balance) :
    (seller_balance_after trade b).money = b.money + trade.quantity * trade.price := rfl

theorem get_seller_balance_after (trade : Trade) (b : Balance) :
    (seller_balance_after trade b).get trade.ptype = b.get trade.ptype - trade.quantity := by
  rw [seller_balance_after, Balance.get_mk_money, Balance.get_addGood_same]
  ring

/-- `calc_utility` succeeds exactly on the three valid trader types. -/
theorem calc_utility_ok (ttype : Nat) (b : Balance)
    (h : ttype = 1 ∨ ttype = 2 ∨ ttype = 3) : ∃ u, calc_utility ttype b = .ok u := by
  rcases h with h | h | h <;> simp [calc_utility, h]

theorem apply_trade_not_involved (bals : Nat → Balance) (trade : Trade) (tid : Nat)
    (h1 : tid ≠ trade.seller_id) (h2 : tid ≠ trade.buyer_id) :
    apply_trade bals trade tid = bals tid := by
  simp [apply_trade, h1, h2]

theorem apply_trade_buyer (bals : Nat → Balance) (trade : Trade)
    (hne : trade.buyer_id ≠ trade.seller_id) :
    apply_trade bals trade trade.buyer_id
      = buyer_balance_after trade (bals trade.buyer_id) := by
  have hcond : trade.buyer_id = trade.seller_id ∨ trade.buyer_id = trade.buyer_id :=
    Or.inr rfl
  simp [apply_trade, hcond, bookkeep_balance, hne]

theorem apply_trade_seller (bals : Nat → Balance) (trade : Trade)
    (hne : trade.buyer_id ≠ trade.seller_id) :
    apply_trade bals trade trade.seller_id
      = seller_balance_after trade (bals trade.seller_id) := by
  have hcond : trade.seller_id = trade.seller_id ∨ trade.seller_id = trade.buyer_id :=
    Or.inl rfl
  simp [apply_trade, hcond, bookkeep_balance, hne]

theorem apply_trade_self (bals : Nat → Balance) (trade : Trade)
    (hself : trade.buyer_id = trade.seller_id) (tid : Nat) :
    apply_trade bals trade tid = bals tid := by
  by_cases hcond : tid = trade.seller_id ∨ tid = trade.buyer_id <;>
    simp [apply_trade, hcond, bookkeep_balance, hself]

/-- Summing any integer component of the balances over a finite set of
traders containing both counterparties is unchanged by a trade whenever the
two counterparties' contributions cancel. -/
theorem sum_apply_trade_eq (T : Finset ℕ) (bals : Nat → Balance) (trade : Trade)
    (f : Balance → Int) (hne : trade.buyer_id ≠ trade.seller_id)
    (hb : trade.buyer_id ∈ T) (hs : trade.seller_id ∈ T)
    (hpair : f (apply_trade bals trade trade.buyer_id)
               + f (apply_trade bals trade trade.seller_id)
             = f (bals trade.buyer_id) + f (bals trade.seller_id)) :
    ∑ t ∈ T, f (apply_trade bals trade t) = ∑ t ∈ T, f (bals t) := by
  have hsub : ({trade.buyer_id, trade.seller_id} : Finset ℕ) ⊆ T := by
    intro x hx
    simp only [Finset.mem_insert, Finset.mem_singleton] at hx
    rcases hx with rfl | rfl <;> assumption
  have hzero : ∀ x ∈ T, x ∉ ({trade.buyer_id, trade.seller_id} : Finset ℕ) →
      f (apply_trade bals trade x) - f (bals x) = 0 := by
    intro x _ hx
    simp only [Finset.mem_insert, Finset.mem_singleton, not_or] at hx
    rw [apply_trade_not_involved bals trade x hx.2 hx.1]
    ring
  have hdiff : ∑ t ∈ T, (f (apply_trade bals trade t) - f (bals t)) = 0 := by
    rw [← Finset.sum_subset hsub hzero, Finset.sum_pair hne]
    linarith [hpair]
  have := Finset.sum_sub_distrib (s := T)
    (f := fun t => f (apply_trade bals trade t)) (g := fun t => f (bals t))
  rw [this] at hdiff
  linarith [hdiff]

/-! ## C6 : conservation of money and goods under `bookkeep` -/

/-- C6: for a trade with distinct buyer and seller, `bookkeep` charges the
buyer exactly `price * quantity` of money and hands them `quantity` units of
the traded good, credits the seller symmetrically, and therefore the total
money and the total units of each good summed over any set of traders
containing both counterparties are unchanged. -/
theorem bookkeep_conservation (trade : Trade) (tb ts : Trader)
    (hbt : tb.tid = trade.buyer_id) (hst : ts.tid = trade.seller_id)
    (hne : trade.buyer_id ≠ trade.seller_id)
    (htb : tb.ttype = 1 ∨ tb.ttype = 2 ∨ tb.ttype = 3)
    (hts : ts.ttype = 1 ∨ ts.ttype = 2 ∨ ts.ttype = 3) :
    (∃ tb', bookkeep tb trade = .ok tb' ∧
       tb'.balance.money = tb.balance.money - trade.price * trade.quantity ∧
       tb'.balance.get trade.ptype = tb.balance.get trade.ptype + trade.quantity) ∧
    (∃ ts', bookkeep ts trade = .ok ts' ∧
       ts'.balance.money = ts.balance.money + trade.price * trade.quantity ∧
       ts'.balance.get trade.ptype = ts.balance.get trade.ptype - trade.quantity) ∧
    (∀ (T : Finset ℕ) (bals : Nat → Balance),
       trade.buyer_id ∈ T → trade.seller_id ∈ T →
       (∑ t ∈ T, (apply_trade bals trade t).money = ∑ t ∈ T, (bals t).money) ∧
       (∑ t ∈ T, (apply_trade bals trade t).X = ∑ t ∈ T, (bals t).X) ∧
       (∑ t ∈ T, (apply_trade bals trade t).Y = ∑ t ∈ T, (bals t).Y)) := by
  refine ⟨?_, ?_, ?_⟩
  · have hbb : bookkeep_balance tb.tid trade tb.balance
        = some (buyer_balance_after trade tb.balance) := by
      simp [bookkeep_balance, hne, hbt]
    obtain ⟨u, hu⟩ := calc_utility_ok tb.ttype (buyer_balance_after trade tb.balance) htb
    refine ⟨{ tb with
              blotter := tb.blotter ++ [trade],
              balance := buyer_balance_after trade tb.balance,
              utility := u }, ?_, ?_, ?_⟩
    · simp [bookkeep, hbb, hu]
    · simp [money_buyer_balance_after, mul_comm]
    · simp [get_buyer_balance_after]
  · have hbb : bookkeep_balance ts.tid trade ts.balance
        = some (seller_balance_after trade ts.balance) := by
      simp [bookkeep_balance, hne, hst]
    obtain ⟨u, hu⟩ := calc_utility_ok ts.ttype (seller_balance_after trade ts.balance) hts
    refine ⟨{ ts with
              blotter := ts.blotter ++ [trade],
              balance := seller_balance_after trade ts.balance,
              utility := u }, ?_, ?_, ?_⟩
    · simp [bookkeep, hbb, hu]
    · simp [money_seller_balance_after, mul_comm]
    · simp [get_seller_balance_after]
  · intro T bals hbT hsT
    refine ⟨?_, ?_, ?_⟩ <;>
      [exact sum_apply_trade_eq T bals trade Balance.money hne hbT hsT
        (by rw [apply_trade_buyer bals trade hne, apply_trade_seller bals trade hne]
            simp [buyer_balance_after, seller_balance_after, Balance.money_addGood]);
       exact sum_apply_trade_eq T bals trade Balance.X hne hbT hsT
        (by rw [apply_trade_buyer bals trade hne, apply_trade_seller bals trade hne]
            simp only [buyer_balance_after, seller_balance_after]
            cases trade.ptype <;> simp [Balance.addGood]
            ring);
       exact sum_apply_trade_eq T bals trade Balance.Y hne hbT hsT
        (by rw [apply_trade_buyer bals trade hne, apply_trade_seller bals trade hne]
            simp only [buyer_balance_after, seller_balance_after]
            cases trade.ptype <;> simp [Balance.addGood]
            ring)]

/-- C6 witness: a concrete trade between traders 1 (buyer) and 2 (seller). -/
theorem bookkeep_conservation_witness :
    (∃ tb', bookkeep { tid := 1, ttype := 3, balance := ⟨400, 0, 0⟩ } exTrade = .ok tb' ∧
       tb'.balance.money = (400 : Int) - exTrade.price * exTrade.quantity ∧
       tb'.balance.get exTrade.ptype = 0 + exTrade.quantity) ∧
    (∃ ts', bookkeep { tid := 2, ttype := 1, balance := ⟨0, 5, 0⟩ } exTrade = .ok ts' ∧
       ts'.balance.money = (0 : Int) + exTrade.price * exTrade.quantity ∧
       ts'.balance.get exTrade.ptype = 5 - exTrade.quantity) ∧
    (∀ (T : Finset ℕ) (bals : Nat → Balance),
       exTrade.buyer_id ∈ T → exTrade.seller_id ∈ T →
       (∑ t ∈ T, (apply_trade bals exTrade t).money = ∑ t ∈ T, (bals t).money) ∧
       (∑ t ∈ T, (apply_trade bals exTrade t).X = ∑ t ∈ T, (bals t).X) ∧
       (∑ t ∈ T, (apply_trade bals exTrade t).Y = ∑ t ∈ T, (bals t).Y)) :=
  bookkeep_conservation exTrade
    { tid := 1, ttype := 3, balance := ⟨400, 0, 0⟩ }
    { tid := 2, ttype := 1, balance := ⟨0, 5, 0⟩ }
    rfl rfl (by decide) (by decide) (by decide)

/-! ## C7 : self-trades and uninvolved traders in `bookkeep` -/

/-- A trader uninvolved in a *self*-trade of some other trader: `bookkeep`
succeeds on it (the `buyer == seller` branch fires first). -/
def c7Trader : Trader := { tid := 3, ttype := 1, balance := ⟨0, 10, 0⟩ }

/-- A self-trade of trader 7 (buyer = seller = 7 ≠ 3). -/
def c7SelfTrade : Trade := ⟨5, 1, 1, 7, 7, 50, 1, Good.X, false, 7⟩

/-- A trade between traders 8 and 9, neither of them trader 3. -/
def c7OtherTrade : Trade := ⟨6, 1, 1, 8, 9, 50, 1, Good.X, false, 9⟩

/-- C7, counterexample: trader 3 is neither buyer nor seller of the
self-trade of trader 7, yet `bookkeep` succeeds on it (appending the trade
to the blotter) instead of failing as the claim states: the
`buyer == seller` no-op branch is tested before the involvement check. -/
theorem bookkeep_uninvolved_counterexample :
    c7Trader.tid ≠ c7SelfTrade.buyer_id ∧ c7Trader.tid ≠ c7SelfTrade.seller_id ∧
    bookkeep c7Trader c7SelfTrade
      = .ok { c7Trader with blotter := [c7SelfTrade], utility := 0 } := by
  refine ⟨by decide, by decide, ?_⟩
  simp [bookkeep, bookkeep_balance, c7Trader, c7SelfTrade, calc_utility]

/-- C7 (amended): a trade whose buyer equals its seller leaves the trader's
balance unchanged while still being appended to the blotter; and a trade
with *distinct* buyer and seller naming the trader as neither fails with the
`ValueError` message.  (When buyer = seller the no-op branch fires first, so
an uninvolved trader's `bookkeep` then succeeds — hence the distinctness
proviso.) -/
theorem bookkeep_self_trade_and_uninvolved (t : Trader) (trade : Trade) :
    (trade.buyer_id = trade.seller_id →
       (t.ttype = 1 ∨ t.ttype = 2 ∨ t.ttype = 3) →
       ∃ t', bookkeep t trade = .ok t' ∧ t'.balance = t.balance ∧
         t'.blotter = t.blotter ++ [trade]) ∧
    (trade.buyer_id ≠ trade.seller_id → trade.buyer_id ≠ t.tid →
       trade.seller_id ≠ t.tid →
       bookkeep t trade = .error "Trader was not involved in this trade") := by
  constructor
  · intro hself htt
    obtain ⟨u, hu⟩ := calc_utility_ok t.ttype t.balance htt
    exact ⟨{ t with blotter := t.blotter ++ [trade], utility := u },
      by simp [bookkeep, bookkeep_balance, hself, hu], rfl, rfl⟩
  · intro hne hb hs
    simp [bookkeep, bookkeep_balance, hne, hb, hs]

/-- C7 witness: trader 3 processing the self-trade of trader 7 keeps its
balance and extends its blotter, and processing an ordinary trade between
traders 8 and 9 fails. -/
theorem bookkeep_self_trade_and_uninvolved_witness :
    (∃ t', bookkeep c7Trader c7SelfTrade = .ok t' ∧ t'.balance = c7Trader.balance ∧
       t'.blotter = c7Trader.blotter ++ [c7SelfTrade]) ∧
    bookkeep c7Trader c7OtherTrade = .error "Trader was not involved in this trade" :=
  ⟨(bookkeep_self_trade_and_uninvolved c7Trader c7SelfTrade).1 rfl (Or.inl rfl),
   (bookkeep_self_trade_and_uninvolved c7Trader c7OtherTrade).2
     (by decide) (by decide) (by decide)⟩

/-! ## C5 : solvency — no reachable balance is negative -/

/-- All three holdings of a balance are non-negative. -/
def BalNonNeg (b : Balance) : Prop := 0 ≤ b.money ∧ 0 ≤ b.X ∧ 0 ≤ b.Y

/-- Book well-formedness: every resting order has an in-range price and a
non-negative quantity.  Orders only enter the book through `process_order`,
which has already rejected prices `≤ minprice`. -/
def BookWF (minp : Int) (ob : Orderbook) : Prop :=
  ∀ g s o, ob.get g s = some o → minp < o.price ∧ 0 ≤ o.quantity

/-- The preserved invariant: all balances non-negative and the book
well-formed. -/
def Inv (minp : Int) (s : MarketState) : Prop :=
  (∀ tid, BalNonNeg (s.bals tid)) ∧ BookWF minp s.book

theorem bookWF_set (minp : Int) (ob : Orderbook) (g : Good) (sd : Side) (v : Option Order)
    (hob : BookWF minp ob)
    (hv : ∀ o, v = some o → minp < o.price ∧ 0 ≤ o.quantity) :
    BookWF minp (ob.set g sd v) := by
  intro g' s' o' h
  by_cases hcell : g = g' ∧ sd = s'
  · obtain ⟨rfl, rfl⟩ := hcell
    rw [Orderbook.get_set_same] at h
    exact hv _ h
  · rw [Orderbook.get_set_ne _ _ _ _ _ _ (not_and_or.mp hcell)] at h
    exact hob _ _ _ h

/-- The book after `add_order_lob` is either unchanged or has the submitted
order written into its own (good, side) cell. -/
theorem add_order_lob_book_cases (ob : Orderbook) (o : Order) :
    (add_order_lob ob o).1 = ob ∨
    (add_order_lob ob o).1 = ob.set o.ptype o.otype (some o) := by
  unfold add_order_lob
  cases ob.get o.ptype o.otype with
  | none => exact Or.inr rfl
  | some rest =>
    cases o.otype with
    | bid =>
      by_cases h : o.price > rest.price
      · right; simp [h]
      · left; simp [h]
    | ask =>
      by_cases h : o.price < rest.price
      · right; simp [h]
      · left; simp [h]

theorem add_order_lob_bookWF (minp : Int) (ob : Orderbook) (o : Order)
    (hob : BookWF minp ob) (hp : minp < o.price) (hq : 0 ≤ o.quantity) :
    BookWF minp (add_order_lob ob o).1 := by
  rcases add_order_lob_book_cases ob o with h | h <;> rw [h]
  · exact hob
  · exact bookWF_set minp ob o.ptype o.otype (some o) hob
      (fun o' ho' => Option.some.inj ho' ▸ ⟨hp, hq⟩)

theorem buyer_balance_after_nonneg (trade : Trade) (b : Balance)
    (hb : BalNonNeg b) (hq : 0 ≤ trade.quantity)
    (hmon : trade.price * trade.quantity ≤ b.money) :
    BalNonNeg (buyer_balance_after trade b) := by
  obtain ⟨hm, hx, hy⟩ := hb
  have hc : trade.quantity * trade.price = trade.price * trade.quantity := mul_comm _ _
  unfold buyer_balance_after
  cases trade.ptype <;> simp only [Balance.addGood, BalNonNeg] <;>
    exact ⟨by linarith, by linarith, by linarith⟩

theorem seller_balance_after_nonneg (trade : Trade) (b : Balance)
    (hb : BalNonNeg b) (hq : 0 ≤ trade.quantity) (hp : 0 ≤ trade.price)
    (hg : trade.quantity ≤ b.get trade.ptype) :
    BalNonNeg (seller_balance_after trade b) := by
  obtain ⟨hm, hx, hy⟩ := hb
  have hqp : 0 ≤ trade.quantity * trade.price := mul_nonneg hq hp
  unfold seller_balance_after
  cases h : trade.ptype with
  | X =>
    rw [h] at hg
    simp only [Balance.get] at hg
    simp only [Balance.addGood, BalNonNeg]
    exact ⟨by linarith, by linarith, by linarith⟩
  | Y =>
    rw [h] at hg
    simp only [Balance.get] at hg
    simp only [Balance.addGood, BalNonNeg]
    exact ⟨by linarith, by linarith, by linarith⟩

/-- The two `bookkeep` calls of the driver keep every balance non-negative,
given the facts `process_order` checked when it emitted the trade. -/
theorem apply_trade_nonneg (bals : Nat → Balance) (trade : Trade)
    (hall : ∀ tid, BalNonNeg (bals tid))
    (hp : 0 ≤ trade.price) (hq : 0 ≤ trade.quantity)
    (hbuy : trade.price * trade.quantity ≤ (bals trade.buyer_id).money)
    (hsell : trade.quantity ≤ (bals trade.seller_id).get trade.ptype) :
    ∀ tid, BalNonNeg (apply_trade bals trade tid) := by
  intro tid
  by_cases hself : trade.buyer_id = trade.seller_id
  · rw [apply_trade_self bals trade hself tid]
    exact hall tid
  · by_cases hb : tid = trade.buyer_id
    · subst hb
      rw [apply_trade_buyer bals trade hself]
      exact buyer_balance_after_nonneg trade _ (hall _) hq hbuy
    · by_cases hs : tid = trade.seller_id
      · subst hs
        rw [apply_trade_seller bals trade hself]
        exact seller_balance_after_nonneg trade _ (hall _) hq hp hsell
      · rw [apply_trade_not_involved bals trade tid hs hb]
        exact hall tid

/-- One `applyOrder` step preserves the invariant. -/
theorem applyOrder_preserves_inv (minp maxp : Int) (hmin : 0 ≤ minp)
    (s : MarketState) (hinv : Inv minp s) (time period run : Int) (o : Order)
    (hq : 0 ≤ o.quantity) :
    Inv minp (applyOrder minp maxp s time period run o) := by
  obtain ⟨hbal, hwf⟩ := hinv
  obtain ⟨oid, tid, otype, ptype, price, quantity, otime, acc, strat, arb, tp⟩ := o
  have hq' : 0 ≤ quantity := hq
  by_cases hrange : price ≤ minp ∨ price ≥ maxp
  · simp only [applyOrder, process_order, hrange, if_true, ite_true]
    exact ⟨hbal, hwf⟩
  · have hpr : minp < price := by
      push_neg at hrange
      exact hrange.1
    cases otype with
    | ask =>
      by_cases hqty : quantity ≤ (s.bals tid).get ptype
      · cases hbid : s.book.get ptype Side.bid with
        | none =>
          simp only [applyOrder, process_order, hrange, hqty, hbid, if_false, if_true,
            ite_true, ite_false]
          exact ⟨hbal, add_order_lob_bookWF minp s.book _ hwf hpr hq'⟩
        | some restbid =>
          obtain ⟨hrbp, hrbq⟩ := hwf ptype Side.bid restbid hbid
          have hrbp0 : 0 ≤ restbid.price := le_of_lt (lt_of_le_of_lt hmin hrbp)
          by_cases hcross : price ≤ restbid.price
          · by_cases hmoney : restbid.price * restbid.quantity ≤ (s.bals restbid.tid).money
            · by_cases hpart : quantity < restbid.quantity
              · simp only [applyOrder, process_order, hrange, hqty, hbid, hcross, hmoney,
                  hpart, if_false, if_true, ite_true, ite_false]
                refine ⟨?_, ?_⟩
                · exact apply_trade_nonneg s.bals _ hbal hrbp0 hq'
                    (le_trans (mul_le_mul_of_nonneg_left hpart.le hrbp0) hmoney) hqty
                · exact bookWF_set minp s.book ptype Side.bid _ hwf
                    (fun o' ho' => Option.some.inj ho' ▸
                      ⟨hrbp, by simpa using sub_nonneg.mpr hpart.le⟩)
              · simp only [applyOrder, process_order, hrange, hqty, hbid, hcross, hmoney,
                  hpart, if_false, if_true, ite_true, ite_false]
                refine ⟨?_, ?_⟩
                · exact apply_trade_nonneg s.bals _ hbal hrbp0 hrbq hmoney
                    (le_trans (le_of_not_lt hpart) hqty)
                · exact bookWF_set minp s.book ptype Side.bid none hwf
                    (fun o' ho' => by cases ho')
            · simp only [applyOrder, process_order, hrange, hqty, hbid, hcross, hmoney,
                if_false, if_true, ite_true, ite_false]
              refine ⟨hbal, ?_⟩
              exact add_order_lob_bookWF minp _ _
                (bookWF_set minp s.book ptype Side.bid none hwf (fun o' ho' => by cases ho'))
                hpr hq'
          · simp only [applyOrder, process_order, hrange, hqty, hbid, hcross,
              if_false, if_true, ite_true, ite_false]
            exact ⟨hbal, add_order_lob_bookWF minp s.book _ hwf hpr hq'⟩
      · simp only [applyOrder, process_order, hrange, hqty, if_false, if_true, ite_true,
          ite_false]
        exact ⟨hbal, hwf⟩
    | bid =>
      by_cases hqty : price * quantity ≤ (s.bals tid).money
      · cases hask : s.book.get ptype Side.ask with
        | none =>
          simp only [applyOrder, process_order, hrange, hqty, hask, if_false, if_true,
            ite_true, ite_false]
          exact ⟨hbal, add_order_lob_bookWF minp s.book _ hwf hpr hq'⟩
        | some restask =>
          obtain ⟨hrap, hraq⟩ := hwf ptype Side.ask restask hask
          have hrap0 : 0 ≤ restask.price := le_of_lt (lt_of_le_of_lt hmin hrap)
          by_cases hcross : price ≥ restask.price
          · by_cases hgoods : quantity ≤ (s.bals restask.tid).get ptype
            · by_cases hpart : quantity < restask.quantity
              · simp only [applyOrder, process_order, hrange, hqty, hask, hcross, hgoods,
                  hpart, if_false, if_true, ite_true, ite_false]
                refine ⟨?_, ?_⟩
                · exact apply_trade_nonneg s.bals _ hbal hrap0 hq'
                    (le_trans (mul_le_mul_of_nonneg_right hcross hq') hqty) hgoods
                · exact bookWF_set minp s.book ptype Side.ask _ hwf
                    (fun o' ho' => Option.some.inj ho' ▸
                      ⟨hrap, by simpa using sub_nonneg.mpr hpart.le⟩)
              · simp only [applyOrder, process_order, hrange, hqty, hask, hcross, hgoods,
                  hpart, if_false, if_true, ite_true, ite_false]
                refine ⟨?_, ?_⟩
                · refine apply_trade_nonneg s.bals _ hbal hrap0 hraq ?_
                    (le_trans (le_of_not_lt hpart) hgoods)
                  calc restask.price * restask.quantity
                      ≤ restask.price * quantity :=
                        mul_le_mul_of_nonneg_left (le_of_not_lt hpart) hrap0
                    _ ≤ price * quantity := mul_le_mul_of_nonneg_right hcross hq'
                    _ ≤ (s.bals tid).money := hqty
                · exact bookWF_set minp s.book ptype Side.ask none hwf
                    (fun o' ho' => by cases ho')
            · simp only [applyOrder, process_order, hrange, hqty, hask, hcross, hgoods,
                if_false, if_true, ite_true, ite_false]
              refine ⟨hbal, ?_⟩
              exact add_order_lob_bookWF minp _ _
                (bookWF_set minp s.book ptype Side.ask none hwf (fun o' ho' => by cases ho'))
                hpr hq'
          · simp only [applyOrder, process_order, hrange, hqty, hask, hcross,
              if_false, if_true, ite_true, ite_false]
            exact ⟨hbal, add_order_lob_bookWF minp s.book _ hwf hpr hq'⟩
      · simp only [applyOrder, process_order, hrange, hqty, if_false, if_true, ite_true,
          ite_false]
        exact ⟨hbal, hwf⟩

/-- C5: starting from the Scarf-economy initial endowments with an empty
book, every state reachable by submitting orders (each processed by
`Exchange.process_order` and, when a trade results, booked by
`Trader.bookkeep` on its buyer and seller) has every trader's money, X and Y
holdings non-negative. -/
theorem reachable_balances_nonneg (minp maxp : Int) (hmin : 0 ≤ minp)
    (tmap : Nat → Nat) (s0 : MarketState)
    (h0 : ∀ tid, reset_balance (tmap tid) = some (s0.bals tid))
    (hbook : s0.book = Orderbook.empty)
    (s : MarketState) (hreach : Relation.ReflTransGen (Step minp maxp) s0 s) :
    ∀ tid, 0 ≤ (s.bals tid).money ∧ 0 ≤ (s.bals tid).X ∧ 0 ≤ (s.bals tid).Y := by
  have hinv0 : Inv minp s0 := by
    constructor
    · intro tid
      have h := h0 tid
      unfold reset_balance at h
      split_ifs at h <;> simp only [Option.some.injEq] at h <;>
        rw [← h] <;> exact ⟨by norm_num, by norm_num, by norm_num⟩
    · rw [hbook]
      intro g sd o h
      cases g <;> cases sd <;> simp [Orderbook.empty, Orderbook.get] at h
  have hinv : Inv minp s := by
    induction hreach with
    | refl => exact hinv0
    | tail _ hstep ih =>
      cases hstep with
      | order time period run o hq =>
        exact applyOrder_preserves_inv minp maxp hmin _ ih time period run o hq
  exact fun tid => hinv.1 tid

/-- The initial state used by the C5 witness: every trader of type 3. -/
def w5State : MarketState := ⟨fun _ => ⟨400, 0, 0⟩, Orderbook.empty⟩

/-- An order submitted in the C5 witness run. -/
def w5Order : Order :=
  { oid := 1, tid := 1, otype := Side.bid, ptype := Good.X, price := 50, quantity := 1,
    time := 1 }

/-- C5 witness: after one actual step (trader 1 posts a bid at 50, which is
admitted to the empty book), trader 1's balances are non-negative. -/
theorem reachable_balances_nonneg_witness :
    0 ≤ ((applyOrder 1 201 w5State 1 1 1 w5Order).bals 1).money ∧
    0 ≤ ((applyOrder 1 201 w5State 1 1 1 w5Order).bals 1).X ∧
    0 ≤ ((applyOrder 1 201 w5State 1 1 1 w5Order).bals 1).Y :=
  reachable_balances_nonneg 1 201 (by norm_num) (fun _ => 3) w5State (fun _ => rfl) rfl
    (applyOrder 1 201 w5State 1 1 1 w5Order)
    (Relation.ReflTransGen.single (Step.order w5State 1 1 1 w5Order (by decide))) 1

/-! ## C8 : the belief fallback of `Trader_eGD.equilibrium_price` -/

/-- History entry `(price, quantity, accepted, side, oid)` appended to the
shared `Trader_eGD.history[good]` by `respond` (lines 1438 and 1452). -/
structure HistEntry where
  price : Int
  quantity : Int
  accepted : Bool
  side : Side
  oid : Nat
deriving DecidableEq, Repr

/-- The uniformly random fallback price of `equilibrium_price`
(lines 1305–1310): `20 + 60*random()` for good X, `10 + 30*random()` for
good Y, with `r` the value drawn from `random.random()`. -/
def fallback_price : Good → ℚ → ℚ
  | Good.X, r => 20 + 60 * r
  | Good.Y, r => 10 + 30 * r

/-- `np.argmin` (line 1319): index of the first minimal element. -/
def argmin_list (l : List ℚ) : Nat :=
  match l.enum with
  | [] => 0
  | p :: rest => (rest.foldl (fun best q => if q.2 < best.2 then q else best) p).1

/-- `Trader_eGD.equilibrium_price` (lines 1280–1321).  The two acceptance
probability vectors produced by `estimate_probability` (the empirical,
spline-interpolated belief curves of lines 1138–1278) are abstracted as the
parameter `estimate`, which the source instantiates with
`estimate_probability(good, action, lob)`; the theorem below quantifies over
this component, because the branch under verification returns before it is
consulted.  With fewer than 10 recorded bid prices or fewer than 5 recorded
ask prices a random fallback price is returned; otherwise the price with the
minimal absolute difference of ask- and bid-acceptance probability is
chosen. -/
def equilibrium_price (estimate : Side → List ℚ) (good : Good)
    (hist : List HistEntry) (r : ℚ) : ℚ :=
  let prices_bid := (hist.filter (fun h => h.side == Side.bid)).map (fun h => h.price)
  let prices_ask := (hist.filter (fun h => h.side == Side.ask)).map (fun h => h.price)
  if prices_bid.length < 10 ∨ prices_ask.length < 5 then
    fallback_price good r
  else
    let ya := estimate Side.ask
    let yb := estimate Side.bid
    let absdiff := (ya.zip yb).map (fun p => |p.1 - p.2|)
    (argmin_list absdiff : ℚ)

/-- C8: whenever the shared history holds fewer than 10 bid observations or
fewer than 5 ask observations, `equilibrium_price` returns the random
fallback price — inside [20, 80] for good X and inside [10, 40] for good Y —
and the result is independent of the belief-curve computation (the same
value for any two estimators), i.e. no spline or probability vector is
used. -/
theorem equilibrium_price_fallback (est1 est2 : Side → List ℚ) (good : Good)
    (hist : List HistEntry) (r : ℚ) (hr0 : 0 ≤ r) (hr1 : r < 1)
    (hfew : ((hist.filter (fun h => h.side == Side.bid)).map (fun h => h.price)).length < 10 ∨
            ((hist.filter (fun h => h.side == Side.ask)).map (fun h => h.price)).length < 5) :
    equilibrium_price est1 good hist r = fallback_price good r ∧
    equilibrium_price est1 good hist r = equilibrium_price est2 good hist r ∧
    (good = Good.X → 20 ≤ equilibrium_price est1 good hist r ∧
      equilibrium_price est1 good hist r ≤ 80) ∧
    (good = Good.Y → 10 ≤ equilibrium_price est1 good hist r ∧
      equilibrium_price est1 good hist r ≤ 40) := by
  have h1 : equilibrium_price est1 good hist r = fallback_price good r := by
    simp only [equilibrium_price]
    rw [if_pos hfew]
  have h2 : equilibrium_price est2 good hist r = fallback_price good r := by
    simp only [equilibrium_price]
    rw [if_pos hfew]
  refine ⟨h1, h2 ▸ h1, ?_, ?_⟩
  · rintro rfl
    rw [h1]
    simp only [fallback_price]
    exact ⟨by linarith, by linarith⟩
  · rintro rfl
    rw [h1]
    simp only [fallback_price]
    exact ⟨by linarith, by linarith⟩

/-- C8 witness: with an empty history (0 bid and 0 ask observations) and the
draw r = 1/2, the fallback 20 + 60·(1/2) = 50 is returned for good X,
whatever probability vectors an estimator would have produced. -/
theorem equilibrium_price_fallback_witness :
    equilibrium_price (fun _ => []) Good.X [] (1/2) = fallback_price Good.X (1/2) ∧
    equilibrium_price (fun _ => []) Good.X [] (1/2)
      = equilibrium_price (fun _ => [0, 1]) Good.X [] (1/2) ∧
    (Good.X = Good.X → 20 ≤ equilibrium_price (fun _ => []) Good.X [] (1/2) ∧
      equilibrium_price (fun _ => []) Good.X [] (1/2) ≤ 80) ∧
    (Good.X = Good.Y → 10 ≤ equilibrium_price (fun _ => []) Good.X [] (1/2) ∧
      equilibrium_price (fun _ => []) Good.X [] (1/2) ≤ 40) :=
  equilibrium_price_fallback (fun _ => []) (fun _ => [0, 1]) Good.X [] (1/2)
    (by norm_num) (by norm_num) (by simp)

/-! ## C10 : `Trader_ZI.get_order` on an empty balance -/

/-- `Trader.utility_gain_order` (lines 597–621): utility difference if the
order were filled, computed on a copied balance; propagates the
invalid-trader-type error of `calc_utility`. -/
def utility_gain_order (t : Trader) (o : Order) : Except String ℚ :=
  let new_balance :=
    match o.otype with
    | Side.ask =>
      { t.balance.addGood o.ptype (-o.quantity) with
        money := t.balance.money + o.price * o.quantity }
    | Side.bid =>
      { t.balance.addGood o.ptype o.quantity with
        money := t.balance.money - o.price * o.quantity }
  match calc_utility t.ttype new_balance, calc_utility t.ttype t.balance with
  | .ok u1, .ok u0 => .ok (u1 - u0)
  | .error e, _ => .error e
  | _, .error e => .error e

/-- `random.randint(lo, hi)` with Python's `try/except` fallback used by
`Trader_ZI.get_order` (lines 710–714): `randint` raises exactly when
`hi < lo`, in which case the handler substitutes `fallbackv`; `rint` is the
drawn value otherwise. -/
def randint_or (rint : Int → Int → Int) (lo hi fallbackv : Int) : Int :=
  if hi < lo then fallbackv else rint lo hi

/-- The common tail of `Trader_ZI.get_order` (lines 742–748): build the
order and return it iff the hypothetical fill does not decrease utility. -/
def zi_finish (t : Trader) (o : Order) : Except String (Option Order) :=
  match utility_gain_order t o with
  | .error e => .error e
  | .ok u => if u ≥ 0 then .ok (some o) else .ok none

/-- `Trader_ZI.get_order` (lines 675–748).  The random draws are modelled by
parameters: `raction` for `random.choice(["bid", "ask"])`, `rgood` for
`random.choice(["X", "Y"])`, `rpick` for `random.choice(available_goods)`,
and `rint` for `random.randint`.  With money and at least one good, a random
side is chosen; with only money, a bid; with only goods, an ask; with
neither, the source raises `ValueError("No money and no goods")`. -/
def zi_get_order (t : Trader) (time : Int) (raction : Side) (rgood : Good)
    (rpick : List Good → Good) (rint : Int → Int → Int) :
    Except String (Option Order) :=
  let money := t.balance.money
  let available_goods := [Good.X, Good.Y].filter (fun g => decide (0 < t.balance.get g))
  if 0 < money ∧ 0 < available_goods.length then
    match raction with
    | Side.bid =>
      let good := rgood
      let price := randint_or rint t.minprice (min t.maxprice money) money
      zi_finish t { oid := 1, tid := t.tid, otype := Side.bid, ptype := good,
                    price := price, quantity := 1, time := time }
    | Side.ask =>
      let good := rpick available_goods
      let price := rint t.minprice t.maxprice
      zi_finish t { oid := 1, tid := t.tid, otype := Side.ask, ptype := good,
                    price := price, quantity := 1, time := time }
  else if 0 < money then
    let good := rgood
    let price := randint_or rint t.minprice (min t.maxprice money) money
    zi_finish t { oid := 1, tid := t.tid, otype := Side.bid, ptype := good,
                  price := price, quantity := 1, time := time }
  else if 0 < available_goods.length then
    let good := rpick available_goods
    let price := rint t.minprice t.maxprice
    zi_finish t { oid := 1, tid := t.tid, otype := Side.ask, ptype := good,
                  price := price, quantity := 1, time := time }
  else
    .error "No money and no goods"

/-- C10: on a balance with zero money and zero holdings of both goods,
`Trader_ZI.get_order` raises the `ValueError` instead of returning an order
or `None`, for every possible sequence of random draws. -/
theorem zi_get_order_error_on_empty_balance (t : Trader) (time : Int)
    (raction : Side) (rgood : Good) (rpick : List Good → Good)
    (rint : Int → Int → Int) (hbal : t.balance = ⟨0, 0, 0⟩) :
    zi_get_order t time raction rgood rpick rint
      = .error "No money and no goods" := by
  simp [zi_get_order, hbal, Balance.get]

/-- The broke trader of the C10 witness. -/
def c10Trader : Trader := { tid := 5, ttype := 1, balance := ⟨0, 0, 0⟩ }

/-- C10 witness: a concrete broke trader with concrete random draws. -/
theorem zi_get_order_error_on_empty_balance_witness :
    zi_get_order c10Trader 3 Side.bid Good.X (fun _ => Good.X) (fun lo _ => lo)
      = .error "No money and no goods" :=
  zi_get_order_error_on_empty_balance c10Trader 3 Side.bid Good.X
    (fun _ => Good.X) (fun lo _ => lo) rfl

end CDA
